import Mathlib

set_option maxHeartbeats 1000000

/-!
Verification of the claim-check engine (`backend/services/claim_engine.py`).

The engine's own code (scoring, identity resolution, retrieval orchestration,
no-evidence guard, result assembly) is embedded directly.  External
collaborators (`vector_store`, `embedder`, `llm`, `advisor_agent`) are passed
in as an explicit environment of functions; `vector_store.rrf_fusion`, which
is repository code not available here, is modelled from the spec.
-/

/-- Python `str.lower()`, modelled character-wise. -/
def pyLower (s : String) : String := String.mk (s.data.map Char.toLower)

/-- Python `str.upper()`, modelled character-wise. -/
def pyUpper (s : String) : String := String.mk (s.data.map Char.toUpper)

/-- Python `needle in haystack` substring containment on strings. -/
def pyIn (needle hay : String) : Bool := decide (needle.data <:+: hay.data)

/-- Python `x or default` for an optional string (both `None` and `""` are falsy). -/
def pyOrStr (v : Option String) (d : String) : String :=
  match v with
  | some s => if s = "" then d else s
  | none => d

/-- Python `x or []` for an optional list (both `None` and `[]` are falsy). -/
def pyOrList (v : Option (List String)) : List String := v.getD []

/-- A policy metadata record (catalog row or uploaded-policy row): a Python
dict whose fields may each be missing/None (`none`). -/
structure Policy where
  id : Option String := none
  name : Option String := none
  user_label : Option String := none
  insurer : Option String := none
  waiting_period_preexisting_years : Option Int := none
  co_pay_percent : Option Int := none
  room_rent_limit : Option String := none
  waiting_period_maternity_months : Option Int := none
  covers_maternity : Option Bool := none
  covers_opd : Option Bool := none
  deriving DecidableEq

/-- Coverage-base term of `compute_claim_score` (the `status = coverage_status.lower()`
block: +50 covered, +25 partially_covered, else 0). -/
def coverageDelta (coverage_status : String) : Int :=
  let status := pyLower coverage_status
  if status = "covered" then 50 else if status = "partially_covered" then 25 else 0

/-- Waiting-period term: `ped = policy.get("waiting_period_preexisting_years", 4)`,
+20 if `ped <= 1`, +12 if `ped <= 2`, else 0. -/
def pedWaitDelta (policy : Policy) : Int :=
  let ped := policy.waiting_period_preexisting_years.getD 4
  if ped ≤ 1 then 20 else if ped ≤ 2 then 12 else 0

/-- Exclusions term: +15 when the list is empty, else −25. -/
def exclusionsDelta (excl : List String) : Int :=
  if excl.isEmpty then 15 else -25

/-- Risk-flag term: +10 when empty, else `-min(len(flags)*5, 20)`. -/
def riskFlagsDelta (flags : List String) : Int :=
  if flags.isEmpty then 10 else -(min ((flags.length : Int) * 5) 20)

/-- Co-pay term: −5 when `policy.get("co_pay_percent", 0) > 0`. -/
def coPayDelta (policy : Policy) : Int :=
  if policy.co_pay_percent.getD 0 > 0 then -5 else 0

/-- Room-rent term: with `room = policy.get("room_rent_limit") or ""`,
−10 when `room and "%" in room`, −5 when
`room and room.lower() not in ("no limit", "no sub-limits", "no restriction", "")`. -/
def roomRentDelta (policy : Policy) : Int :=
  let room := policy.room_rent_limit.getD ""
  if room ≠ "" ∧ pyIn "%" room then -10
  else if room ≠ "" ∧ pyLower room ∉ (["no limit", "no sub-limits", "no restriction", ""] : List String) then -5
  else 0

/-- The accumulated (pre-clamp) score of `compute_claim_score`: the Python code
accumulates `score += ...` block by block; the blocks touch disjoint inputs, so
the accumulated value is the sum of the per-block terms above. -/
def rawClaimScore (coverage_status : String) (exclusions_applicable risk_flags : List String)
    (policy : Policy) : Int :=
  coverageDelta coverage_status + pedWaitDelta policy + exclusionsDelta exclusions_applicable
    + riskFlagsDelta risk_flags + coPayDelta policy + roomRentDelta policy

/-- `compute_claim_score` (claim_engine.py lines 56–130): deterministic score,
returned as `max(0, min(100, score))`. -/
def compute_claim_score (coverage_status : String)
    (exclusions_applicable risk_flags : List String) (policy : Policy) : Int :=
  max 0 (min 100 (rawClaimScore coverage_status exclusions_applicable risk_flags policy))

/-- Spec rule table, coverage-base row, read literally (spec §4.5):
`status = covered → +50`, `status = partially_covered → +25`, else 0. -/
def specCoverageBase (status : String) : Int :=
  if status = "covered" then 50 else if status = "partially_covered" then 25 else 0

/-- Spec rule table, PED-wait row: default 4 years if absent; ≤1 year → +20,
≤2 years → +12, else 0. -/
def specPedDelta (policy : Policy) : Int :=
  let w := policy.waiting_period_preexisting_years.getD 4
  if w ≤ 1 then 20 else if w ≤ 2 then 12 else 0

/-- Spec rule table, exclusions row: none found → +15, ≥1 found → −25. -/
def specExclusionsDelta (excl : List String) : Int :=
  if excl = [] then 15 else -25

/-- Spec rule table, risk-flags row: none → +10, n ≥ 1 → −min(5n, 20). -/
def specRiskDelta (flags : List String) : Int :=
  if flags = [] then 10 else -(min (5 * (flags.length : Int)) 20)

/-- Spec rule table, co-pay row: co-pay > 0% → −5 (default 0 when absent). -/
def specCoPayDelta (policy : Policy) : Int :=
  if policy.co_pay_percent.getD 0 > 0 then -5 else 0

/-- Spec rule table, room-rent row: text contains "%" → −10; text present,
non-empty, not case-insensitively one of the three no-limit phrases, and
without "%" → −5; else 0. -/
def specRoomDelta (policy : Policy) : Int :=
  match policy.room_rent_limit with
  | none => 0
  | some room =>
    if pyIn "%" room then -10
    else if room ≠ "" ∧ pyLower room ∉ (["no limit", "no sub-limits", "no restriction"] : List String) then -5
    else 0

/-- The spec's rule-table score, read literally: apply all rows to the given
`coverage_status` string, sum, then clamp to [0,100]. -/
def specRuleScore (coverage_status : String) (exclusions_applicable risk_flags : List String)
    (policy : Policy) : Int :=
  max 0 (min 100 (specCoverageBase coverage_status + specPedDelta policy
    + specExclusionsDelta exclusions_applicable + specRiskDelta risk_flags
    + specCoPayDelta policy + specRoomDelta policy))

theorem pyLower_eq_empty_iff (s : String) : pyLower s = "" ↔ s = "" := by
  cases s with
  | mk data =>
    cases data with
    | nil => exact Iff.of_eq rfl
    | cons c cs =>
      constructor
      · intro h
        exact absurd (congrArg String.data h) (by simp [pyLower])
      · intro h
        exact absurd (congrArg String.data h) (by simp)

theorem coverageDelta_eq_spec (cs : String) : coverageDelta cs = specCoverageBase (pyLower cs) := rfl

theorem pedWaitDelta_eq_spec (p : Policy) : pedWaitDelta p = specPedDelta p := rfl

theorem exclusionsDelta_eq_spec (ex : List String) : exclusionsDelta ex = specExclusionsDelta ex := by
  cases ex <;> rfl

theorem riskFlagsDelta_eq_spec (rf : List String) : riskFlagsDelta rf = specRiskDelta rf := by
  unfold riskFlagsDelta specRiskDelta
  split_ifs with h1 h2 h2
  · rfl
  · simp_all
  · simp_all
  · omega

theorem coPayDelta_eq_spec (p : Policy) : coPayDelta p = specCoPayDelta p := rfl

theorem roomRentDelta_eq_spec (p : Policy) : roomRentDelta p = specRoomDelta p := by
  rcases hr : p.room_rent_limit with _ | room
  · simp [roomRentDelta, specRoomDelta, hr]
  · simp only [roomRentDelta, specRoomDelta, hr, Option.getD_some]
    by_cases he : room = ""
    · subst he
      decide
    · have hlow : pyLower room ≠ "" := fun h => he ((pyLower_eq_empty_iff room).mp h)
      have hmem : (pyLower room ∈ (["no limit", "no sub-limits", "no restriction", ""] : List String)) ↔
          (pyLower room ∈ (["no limit", "no sub-limits", "no restriction"] : List String)) := by
        simp only [List.mem_cons, List.not_mem_nil, or_false]
        constructor
        · rintro (h | h | h | h)
          exacts [Or.inl h, Or.inr (Or.inl h), Or.inr (Or.inr h), absurd h hlow]
        · rintro (h | h | h)
          exacts [Or.inl h, Or.inr (Or.inl h), Or.inr (Or.inr (Or.inl h))]
      by_cases hc : pyIn "%" room = true
      · simp [he, hc]
      · by_cases hm : pyLower room ∈ (["no limit", "no sub-limits", "no restriction"] : List String)
        · have hm4 : pyLower room ∈ (["no limit", "no sub-limits", "no restriction", ""] : List String) :=
            hmem.mpr hm
          simp [he, hc, hm, hm4]
        · have hm4 : pyLower room ∉ (["no limit", "no sub-limits", "no restriction", ""] : List String) :=
            fun hh => hm (hmem.mp hh)
          simp [he, hc, hm, hm4]

theorem rawClaimScore_eq_spec (cs : String) (ex rf : List String) (p : Policy) :
    rawClaimScore cs ex rf p = specCoverageBase (pyLower cs) + specPedDelta p
      + specExclusionsDelta ex + specRiskDelta rf + specCoPayDelta p + specRoomDelta p := by
  simp only [rawClaimScore, coverageDelta_eq_spec, pedWaitDelta_eq_spec, exclusionsDelta_eq_spec,
    riskFlagsDelta_eq_spec, coPayDelta_eq_spec, roomRentDelta_eq_spec]

/-- C1 (amended): for every coverage_status string, exclusions list, risk-flags
list and policy-metadata record, `compute_claim_score` returns exactly the
clamped sum of the spec's rule-table deltas applied to the *lowercased*
coverage status (the code lower-cases the status before matching, which the
literal rule table does not mention), and the result always lies in [0,100]. -/
theorem compute_claim_score_rule_table (cs : String) (ex rf : List String) (p : Policy) :
    compute_claim_score cs ex rf p = specRuleScore (pyLower cs) ex rf p ∧
    0 ≤ compute_claim_score cs ex rf p ∧ compute_claim_score cs ex rf p ≤ 100 := by
  refine ⟨?_, ?_, ?_⟩
  · simp only [compute_claim_score, specRuleScore, rawClaimScore_eq_spec]
  · exact le_max_left 0 _
  · exact max_le (by norm_num) (min_le_left _ _)

/-- C1 counterexample: at `coverage_status = "Covered"` (mixed case) the code's
score and the literal rule-table score differ (75 vs 25), because the code
matches the lowercased status while the literal table row `status = covered`
does not match `"Covered"`. -/
theorem compute_claim_score_case_counterexample :
    compute_claim_score "Covered" [] [] {} ≠ specRuleScore "Covered" [] [] {} := by decide

/-- C2 (amended): holding all else fixed, appending one risk flag never
increases the returned score; and changing `exclusions_applicable` from the
empty list to any non-empty list replaces the +15 bonus with the −25 penalty,
lowering the pre-clamp rule sum by exactly 40 (not 25), so the returned
(clamped) score never increases. -/
theorem claim_score_monotonicity (cs : String) (ex rf : List String) (f : String) (p : Policy) :
    compute_claim_score cs ex (rf ++ [f]) p ≤ compute_claim_score cs ex rf p ∧
    (ex ≠ [] →
      rawClaimScore cs ex rf p = rawClaimScore cs [] rf p - 40 ∧
      compute_claim_score cs ex rf p ≤ compute_claim_score cs [] rf p) := by
  have hclamp : ∀ a b : Int, a ≤ b → max 0 (min 100 a) ≤ max 0 (min 100 b) := by
    intro a b h
    exact max_le_max (le_refl 0) (min_le_min (le_refl 100) h)
  constructor
  · apply hclamp
    have hflag : riskFlagsDelta (rf ++ [f]) ≤ riskFlagsDelta rf := by
      cases rf with
      | nil => simp [riskFlagsDelta]
      | cons a l =>
        simp only [riskFlagsDelta, List.isEmpty_cons, List.cons_append, if_false,
          List.length_cons, List.length_append, List.length_singleton]
        push_cast
        omega
    simp only [rawClaimScore]
    linarith [hflag]
  · intro hex
    have hraw : rawClaimScore cs ex rf p = rawClaimScore cs [] rf p - 40 := by
      have h1 : exclusionsDelta ex = -25 := by
        cases ex with
        | nil => exact absurd rfl hex
        | cons a l => rfl
      have h2 : exclusionsDelta [] = 15 := rfl
      simp only [rawClaimScore, h1, h2]
      ring
    refine ⟨hraw, ?_⟩
    apply hclamp
    rw [hraw]
    exact sub_le_self _ (by norm_num)

/-- C2 witness. -/
theorem claim_score_monotonicity_witness :
    compute_claim_score "covered" ["a"] (["x"] ++ ["y"]) {} ≤ compute_claim_score "covered" ["a"] ["x"] {} ∧
    rawClaimScore "covered" ["a"] ["x"] {} = rawClaimScore "covered" [] ["x"] {} - 40 ∧
    compute_claim_score "covered" ["a"] ["x"] {} ≤ compute_claim_score "covered" [] ["x"] {} :=
  ⟨(claim_score_monotonicity "covered" ["a"] ["x"] "y" {}).1,
   (claim_score_monotonicity "covered" ["a"] ["x"] "y" {}).2 (by decide)⟩

/-- C2 counterexample: with everything else empty/default and status
`"covered"`, adding one exclusion moves the score from 75 to 35 — a drop of
40, not 25. -/
theorem exclusion_delta_counterexample :
    compute_claim_score "covered" ["Cosmetic surgery is excluded"] [] {} ≠
      compute_claim_score "covered" [] [] {} - 25 := by decide

/-- An evidence chunk: a Python dict produced by the vector store.  `content`
is a required field of EvidenceChunk (spec §3; the code indexes
`chunk["content"]` unconditionally), the other fields may be missing. -/
structure Chunk where
  id : Option String := none
  content : String := ""
  section_type : Option String := none
  page_number : Option Nat := none
  deriving DecidableEq

/-- Truthiness of a chunk id under Python `if cid and ...`: present and
non-empty. -/
def truthyIdB : Option String → Bool
  | some s => s != ""
  | none => false

/-- The loop of `_dedupe`, carrying the `seen` id set. -/
def dedupeGo : List Chunk → List String → List Chunk
  | [], _ => []
  | c :: cs, seen =>
    match c.id with
    | some cid => if cid ≠ "" ∧ cid ∉ seen then c :: dedupeGo cs (cid :: seen) else dedupeGo cs seen
    | none => dedupeGo cs seen

/-- `_dedupe` (claim_engine.py lines 281–290): remove duplicate chunks by id,
preserving order; a chunk whose `"id"` is missing, None, or empty is skipped. -/
def _dedupe (chunks : List Chunk) : List Chunk := dedupeGo chunks []

/-- `_build_context_block` (lines 47–53): one tagged section per chunk,
1-based index, uppercased section tag (default "general"), page number or "?",
full text, joined by a visible delimiter. -/
def _build_context_block (chunks : List Chunk) : String :=
  String.intercalate "\n\n---\n\n" (chunks.enum.map (fun pr =>
    "[CHUNK " ++ toString (pr.1 + 1) ++ " | Section: " ++ pyUpper ((pr.2).section_type.getD "general")
      ++ " | Page: " ++ (match (pr.2).page_number with | some n => toString n | none => "?") ++ "]\n"
      ++ (pr.2).content))

/-- `CLAIM_SECTIONS` (line 16). -/
def CLAIM_SECTIONS : List String :=
  ["exclusions", "coverage", "waiting_periods", "conditions", "limits"]

/-- System prompt `GROUNDED_CLAIM_SYSTEM` (lines 18–44).  The exact prompt
wording is product content which the spec deliberately summarizes rather than
reproduces (spec §1); no claim depends on its text, so an abbreviated
stand-in string is used. -/
def GROUNDED_CLAIM_SYSTEM : String :=
  "You are an expert insurance policy clause analyzer. [coverage-status rules, grounding rules and exact JSON schema summarized per spec section 1: coverage_status, severity_requirements, waiting_period, exclusions_applicable, risk_flags, required_documents, analysis_summary]"

/-- The fixed general-coverage probe text (line 204). -/
def COVERAGE_PROBE : String := "inpatient hospitalization benefit covered illness treatment"

/-- Closing instruction of the user prompt (lines 242–244). -/
def CLAIM_USER_TAIL : String :=
  "Analyze whether this condition/treatment is covered, excluded, or restricted "
    ++ "based ONLY on the context block above. Be decisive — use \x27covered\x27 if general "
    ++ "hospitalization is covered and no exclusion is found for this condition."

/-- The user prompt assembled at lines 238–245. -/
def mkUserPrompt (context_block condition treatment_type : String) : String :=
  "CONTEXT BLOCK:\n" ++ context_block ++ "\n\nCONDITION TO ANALYZE: " ++ condition
    ++ "\nTREATMENT TYPE: " ++ treatment_type ++ "\n\n" ++ CLAIM_USER_TAIL

/-- Error message of the catalog-path no-document guard (lines 161–169). -/
def noDocMsg (policy_name insurer : String) : String :=
  "No embedded policy document found for " ++ policy_name ++ " (" ++ insurer ++ "). "
    ++ "Claim check requires an uploaded and indexed PDF. "
    ++ "Currently only Tata AIG policies have embedded documents — "
    ++ "please select a Tata AIG policy or upload this policy\x27s PDF first."

/-- The no-evidence error message (lines 228–232). -/
def noEvidenceMsg (condition : String) : String :=
  "No relevant policy clause found for \x27" ++ condition ++ "\x27. "
    ++ "The policy document may not contain information about this condition, "
    ++ "or the document may not be indexed correctly."

/-- The raw JSON object returned by `llm.chat_json` (external Analysis
Service): every recognized field may be absent. -/
structure RawAnalysis where
  coverage_status : Option String := none
  severity_requirements : Option (List String) := none
  waiting_period : Option String := none
  exclusions_applicable : Option (List String) := none
  risk_flags : Option (List String) := none
  required_documents : Option (List String) := none
  analysis_summary : Option String := none
  deriving DecidableEq

/-- The dict returned by `run_claim_check`: an absent key is `none`.  Error
returns carry only `error`; the success return sets every other field and has
`"error": None` (the `error` slot stays `none`). -/
structure ClaimResult where
  error : Option String := none
  policy_name : Option String := none
  diagnosis : Option String := none
  treatment_type : Option String := none
  coverage_status : Option String := none
  feasibility_score : Option Int := none
  severity_requirements : Option (List String) := none
  waiting_period : Option String := none
  exclusions_applicable : Option (List String) := none
  risk_flags : Option (List String) := none
  required_documents : Option (List String) := none
  analysis_summary : Option String := none
  chunks_used : Option Nat := none
  deriving DecidableEq

/-- An error return of `run_claim_check`: a dict holding only `"error"`. -/
def errResult (msg : String) : ClaimResult := { error := some msg }

/-- One retrieval call issued against the vector store: the embedding (or raw
text for keyword search), the searched document id, and `top_k`. -/
inductive SearchCall (E : Type) where
  | sem (v : E) (doc : String) (top_k : Nat)
  | sec (v : E) (doc : String) (sections : List String) (top_k : Nat)
  | kw (query : String) (doc : String) (top_k : Nat)
  deriving DecidableEq

/-- The document id a retrieval call searches. -/
def searchDoc {E : Type} : SearchCall E → String
  | SearchCall.sem _ d _ => d
  | SearchCall.sec _ d _ _ => d
  | SearchCall.kw _ d _ => d

/-- The external collaborators of the engine (`vector_store`, `embedder`,
`advisor_agent.find_uploaded_for_insurer`, `llm.chat_json`), abstracted over
the embedding-vector type `E`.  A collaborator call that may raise a Python
exception is modelled as `Except String`.  `llm.chat_json` is always invoked
with the constant `temperature=0.0` (a float carrying no information), so the
temperature argument is not modelled. -/
structure Env (E : Type) where
  get_catalog_policy : String → Option Policy
  get_policy_by_id : String → Option Policy
  list_catalog_policies : List Policy
  find_uploaded_for_insurer : String → Option Policy
  embed_text : String → Except String E
  semantic_search : E → String → Nat → List Chunk
  section_search : E → String → List String → Nat → List Chunk
  keyword_search : String → String → Nat → List Chunk
  rrf_fusion : List Chunk → List Chunk → Nat → List Chunk
  chat_json : String → String → Except String RawAnalysis

/-- The outcome of one `run_claim_check` call: the returned dict (or an
uncaught Python exception, as `Except.error`), plus an instrumentation trace
of the retrieval calls issued and of the `llm.chat_json` invocations
(system prompt, user prompt). -/
structure Outcome (E : Type) where
  result : Except String ClaimResult
  search_calls : List (SearchCall E)
  llm_calls : List (String × String)

/-- One field of the catalog-metadata merge (lines 191–192): copy the catalog
value only when it is present and the uploaded value is absent. -/
def mergeField {α : Type} (pv cv : Option α) : Option α :=
  if cv.isSome ∧ pv.isNone then cv else pv

/-- The six-field catalog merge of the enrichment loop (lines 186–192). -/
def merge_catalog_fields (policy cp : Policy) : Policy :=
  { policy with
    waiting_period_preexisting_years := mergeField policy.waiting_period_preexisting_years cp.waiting_period_preexisting_years
    co_pay_percent := mergeField policy.co_pay_percent cp.co_pay_percent
    room_rent_limit := mergeField policy.room_rent_limit cp.room_rent_limit
    waiting_period_maternity_months := mergeField policy.waiting_period_maternity_months cp.waiting_period_maternity_months
    covers_maternity := mergeField policy.covers_maternity cp.covers_maternity
    covers_opd := mergeField policy.covers_opd cp.covers_opd }

/-- The insurer-match test of the enrichment loop (lines 184–185): the
lowercased uploaded insurer must be truthy and a substring match in either
direction of the lowercased catalog insurer. -/
def insurerMatchB (ins : String) (cp : Policy) : Bool :=
  let cp_ins := pyLower (cp.insurer.getD "")
  ins != "" && (pyIn ins cp_ins || pyIn cp_ins ins)

/-- The enrichment loop over the catalog (lines 183–193): the first matching
catalog record is merged and the loop breaks. -/
def enrich (ins : String) : List Policy → Policy → Policy
  | [], policy => policy
  | cp :: rest, policy =>
    if insurerMatchB ins cp then merge_catalog_fields policy cp else enrich ins rest policy

/-- The RRF constant k (spec §4.2 step 5, design constant). -/
def RRF_K : Nat := 60

/-- 1-based rank of the first chunk carrying `key` in a ranked list, if any. -/
def rankOf (key : Option String) (l : List Chunk) : Option Nat :=
  match l.findIdx? (fun c => c.id == key) with
  | some i => some (i + 1)
  | none => none

/-- The contribution 1/(k + rank) of one ranked list to a chunk's fused
score; 0 when the identifier does not appear in the list. -/
def rrfContrib (key : Option String) (l : List Chunk) : Rat :=
  match rankOf key l with
  | some r => 1 / ((RRF_K : Rat) + r)
  | none => 0

/-- Merge-and-deduplicate by chunk identifier, preserving first-seen order. -/
def dedupeByKeyGo : List Chunk → List (Option String) → List Chunk
  | [], _ => []
  | c :: cs, seen => if c.id ∈ seen then dedupeByKeyGo cs seen else c :: dedupeByKeyGo cs (c.id :: seen)

/-- Insert a scored chunk after every strictly-or-equally higher-scored entry
(stable descending insertion). -/
def insertDesc (p : Chunk × Rat) : List (Chunk × Rat) → List (Chunk × Rat)
  | [] => [p]
  | q :: qs => if p.2 ≤ q.2 then q :: insertDesc p qs else p :: q :: qs

/-- Stable descending insertion sort by fused score. -/
def sortDesc (l : List (Chunk × Rat)) : List (Chunk × Rat) :=
  l.foldl (fun acc p => insertDesc p acc) []

/-- Modelled from the spec: `vector_store.rrf_fusion` is repository code that
is not under src/ (only its call site, claim_engine.py line 224, is).
Spec §4.2 step 5: each chunk's fused score is the sum, over every ranked list
in which its identifier appears, of 1/(k + rank), with k = 60 and rank
counted from 1 within each source list; chunks absent from a list contribute
0 from that list; sort descending by fused score, ties broken by stable input
order; truncate to `top_k`.  Candidates are the two input lists merged and
deduplicated by chunk identifier (the fused set is unique by identifier,
spec §3). -/
def rrf_fusion (sem kw : List Chunk) (top_k : Nat) : List Chunk :=
  let candidates := dedupeByKeyGo (sem ++ kw) []
  let scored := candidates.map (fun c => (c, rrfContrib c.id sem + rrfContrib c.id kw))
  ((sortDesc scored).map Prod.fst).take top_k

/-- Steps 2–10 of `run_claim_check` (lines 195–278), shared by the catalog
and the uploaded path once policy metadata, display name, and search document
id are resolved. -/
def claimSearchAndScore {E : Type} (env : Env E) (condition treatment_type : String)
    (policy : Policy) (policy_name search_policy_id : String) : Outcome E :=
  match env.embed_text (condition ++ " " ++ treatment_type) with
  | Except.error e =>
    { result := Except.ok (errResult ("Embedding failed: " ++ e)), search_calls := [], llm_calls := [] }
  | Except.ok query_embedding =>
    let coverage_embedding :=
      match env.embed_text COVERAGE_PROBE with
      | Except.ok v => v
      | Except.error _ => query_embedding
    let sem_chunks := env.semantic_search query_embedding search_policy_id 6
    let cov_chunks := env.semantic_search coverage_embedding search_policy_id 4
    let sec_chunks := env.section_search query_embedding search_policy_id CLAIM_SECTIONS 4
    let kw_chunks := env.keyword_search condition search_policy_id 10
    let searches : List (SearchCall E) :=
      [SearchCall.sem query_embedding search_policy_id 6,
       SearchCall.sem coverage_embedding search_policy_id 4,
       SearchCall.sec query_embedding search_policy_id CLAIM_SECTIONS 4,
       SearchCall.kw condition search_policy_id 10]
    let combined_sem := _dedupe (sem_chunks ++ cov_chunks ++ sec_chunks)
    let fused := env.rrf_fusion combined_sem kw_chunks 10
    if fused.isEmpty then
      { result := Except.ok (errResult (noEvidenceMsg condition)), search_calls := searches, llm_calls := [] }
    else
      let context_block := _build_context_block fused
      let user_prompt := mkUserPrompt context_block condition treatment_type
      match env.chat_json GROUNDED_CLAIM_SYSTEM user_prompt with
      | Except.error e =>
        { result := Except.error e, search_calls := searches,
          llm_calls := [(GROUNDED_CLAIM_SYSTEM, user_prompt)] }
      | Except.ok analysis =>
        let cs0 := analysis.coverage_status.getD "unknown"
        let coverage_status :=
          if cs0 ∈ (["covered", "partially_covered", "excluded", "unknown"] : List String) then cs0
          else "unknown"
        let severity_requirements := pyOrList analysis.severity_requirements
        let waiting_period := pyOrStr analysis.waiting_period ""
        let exclusions_applicable := pyOrList analysis.exclusions_applicable
        let risk_flags := pyOrList analysis.risk_flags
        let required_documents := pyOrList analysis.required_documents
        let analysis_summary :=
          pyOrStr analysis.analysis_summary "Analysis could not be completed from available context."
        let feasibility_score :=
          compute_claim_score coverage_status exclusions_applicable risk_flags policy
        { result := Except.ok
            { error := none
              policy_name := some policy_name
              diagnosis := some condition
              treatment_type := some treatment_type
              coverage_status := some coverage_status
              feasibility_score := some feasibility_score
              severity_requirements := some severity_requirements
              waiting_period := some waiting_period
              exclusions_applicable := some exclusions_applicable
              risk_flags := some risk_flags
              required_documents := some required_documents
              analysis_summary := some analysis_summary
              chunks_used := some fused.length }
          search_calls := searches
          llm_calls := [(GROUNDED_CLAIM_SYSTEM, user_prompt)] }

/-- `run_claim_check` (lines 142–278).  `uploaded_match["id"]` on the catalog
path is a direct dict index: a record without `"id"` raises `KeyError`,
modelled as `Except.error`. -/
def run_claim_check {E : Type} (env : Env E) (policy_id condition treatment_type : String) :
    Outcome E :=
  match env.get_catalog_policy policy_id with
  | some catalog_policy =>
    let policy_name := pyOrStr catalog_policy.name "Unknown Policy"
    match env.find_uploaded_for_insurer (catalog_policy.insurer.getD "") with
    | none =>
      { result := Except.ok (errResult (noDocMsg policy_name (catalog_policy.insurer.getD ""))),
        search_calls := [], llm_calls := [] }
    | some uploaded_match =>
      match uploaded_match.id with
      | none => { result := Except.error "KeyError: id", search_calls := [], llm_calls := [] }
      | some sid => claimSearchAndScore env condition treatment_type catalog_policy policy_name sid
  | none =>
    match env.get_policy_by_id policy_id with
    | none =>
      { result := Except.ok (errResult "Policy not found."), search_calls := [], llm_calls := [] }
    | some uploaded =>
      let policy_name := pyOrStr uploaded.user_label "Unknown Policy"
      let ins := pyLower (uploaded.insurer.getD "")
      let policy := enrich ins env.list_catalog_policies uploaded
      claimSearchAndScore env condition treatment_type policy policy_name policy_id

/-- A pure-error dict: `error` set and every success field absent. -/
def isErrorResult (r : ClaimResult) : Bool :=
  r.error.isSome && r.policy_name.isNone && r.diagnosis.isNone && r.treatment_type.isNone
    && r.coverage_status.isNone && r.feasibility_score.isNone && r.severity_requirements.isNone
    && r.waiting_period.isNone && r.exclusions_applicable.isNone && r.risk_flags.isNone
    && r.required_documents.isNone && r.analysis_summary.isNone && r.chunks_used.isNone

/-- A fully-populated success dict: `error` null and every success field present. -/
def isFullSuccess (r : ClaimResult) : Bool :=
  r.error.isNone && r.policy_name.isSome && r.diagnosis.isSome && r.treatment_type.isSome
    && r.coverage_status.isSome && r.feasibility_score.isSome && r.severity_requirements.isSome
    && r.waiting_period.isSome && r.exclusions_applicable.isSome && r.risk_flags.isSome
    && r.required_documents.isSome && r.analysis_summary.isSome && r.chunks_used.isSome

/-- Whether an `Except` value is a normal return. -/
def exceptIsOk {ε α : Type} : Except ε α → Bool
  | Except.ok _ => true
  | Except.error _ => false

theorem claimSearchAndScore_embed_fail {E : Type} (env : Env E) (c t : String) (pol : Policy)
    (pn sid e : String) (h : env.embed_text (c ++ " " ++ t) = Except.error e) :
    claimSearchAndScore env c t pol pn sid =
      { result := Except.ok (errResult ("Embedding failed: " ++ e)),
        search_calls := [], llm_calls := [] } := by
  simp [claimSearchAndScore, h]

theorem claimSearchAndScore_search_calls {E : Type} (env : Env E) (c t : String) (pol : Policy)
    (pn sid : String) :
    (claimSearchAndScore env c t pol pn sid).search_calls = [] ∨
    ∃ qv cv, env.embed_text (c ++ " " ++ t) = Except.ok qv ∧
      (claimSearchAndScore env c t pol pn sid).search_calls =
        [SearchCall.sem qv sid 6, SearchCall.sem cv sid 4,
         SearchCall.sec qv sid CLAIM_SECTIONS 4, SearchCall.kw c sid 10] := by
  rcases hq : env.embed_text (c ++ " " ++ t) with e | qv
  · left
    simp [claimSearchAndScore, hq]
  · rcases hc : env.embed_text COVERAGE_PROBE with e2 | w
    · refine Or.inr ⟨qv, qv, rfl, ?_⟩
      simp only [claimSearchAndScore, hq, hc]
      split
      · rfl
      · split <;> rfl
    · refine Or.inr ⟨qv, w, rfl, ?_⟩
      simp only [claimSearchAndScore, hq, hc]
      split
      · rfl
      · split <;> rfl

theorem claimSearchAndScore_ok_shape {E : Type} (env : Env E) (c t : String) (pol : Policy)
    (pn sid : String) (r : ClaimResult)
    (h : (claimSearchAndScore env c t pol pn sid).result = Except.ok r) :
    (isErrorResult r || isFullSuccess r) = true := by
  rcases hq : env.embed_text (c ++ " " ++ t) with e | qv
  · simp only [claimSearchAndScore, hq] at h
    injection h with h
    subst h
    rfl
  · simp only [claimSearchAndScore, hq] at h
    split at h
    · injection h with h
      subst h
      rfl
    · split at h
      · exact absurd h (by simp)
      · injection h with h
        subst h
        rfl

theorem claimSearchAndScore_ok_total {E : Type} (env : Env E) (c t : String) (pol : Policy)
    (pn sid : String) (hllm : ∀ s u, exceptIsOk (env.chat_json s u) = true) :
    exceptIsOk (claimSearchAndScore env c t pol pn sid).result = true := by
  rcases hq : env.embed_text (c ++ " " ++ t) with e | qv
  · simp [claimSearchAndScore, hq, exceptIsOk]
  · simp only [claimSearchAndScore, hq]
    split
    · rfl
    · rcases hchat : env.chat_json GROUNDED_CLAIM_SYSTEM (mkUserPrompt (_build_context_block
          (env.rrf_fusion (_dedupe (env.semantic_search qv sid 6
            ++ env.semantic_search (match env.embed_text COVERAGE_PROBE with
              | Except.ok v => v
              | Except.error _ => qv) sid 4
            ++ env.section_search qv sid CLAIM_SECTIONS 4))
            (env.keyword_search c sid 10) 10)) c t) with e2 | a
      · have := hllm GROUNDED_CLAIM_SYSTEM (mkUserPrompt (_build_context_block
          (env.rrf_fusion (_dedupe (env.semantic_search qv sid 6
            ++ env.semantic_search (match env.embed_text COVERAGE_PROBE with
              | Except.ok v => v
              | Except.error _ => qv) sid 4
            ++ env.section_search qv sid CLAIM_SECTIONS 4))
            (env.keyword_search c sid 10) 10)) c t)
        rw [hchat] at this
        exact absurd this (by simp [exceptIsOk])
      · simp only [hchat]
        rfl

/-- C3: whenever the fused evidence set computed by retrieval and fusion is
empty (here on a resolved uploaded policy with successful embeddings; in
particular when all four retrieval calls return empty lists),
`run_claim_check` returns the structured no-evidence error — whose message is
non-empty and is exactly the template naming the condition — with no success
fields populated, and `llm.chat_json` is never invoked. -/
theorem run_claim_check_no_evidence_guard {E : Type} (env : Env E) (pid c t : String)
    (u : Policy) (qv cv : E)
    (hcat : env.get_catalog_policy pid = none)
    (hup : env.get_policy_by_id pid = some u)
    (hq : env.embed_text (c ++ " " ++ t) = Except.ok qv)
    (hcov : env.embed_text COVERAGE_PROBE = Except.ok cv)
    (hfuse : env.rrf_fusion
        (_dedupe (env.semantic_search qv pid 6 ++ env.semantic_search cv pid 4
          ++ env.section_search qv pid CLAIM_SECTIONS 4))
        (env.keyword_search c pid 10) 10 = []) :
    (run_claim_check env pid c t).result = Except.ok (errResult (noEvidenceMsg c)) ∧
    (run_claim_check env pid c t).llm_calls = [] ∧
    noEvidenceMsg c ≠ "" := by
  have hrun : run_claim_check env pid c t =
      claimSearchAndScore env c t (enrich (pyLower (u.insurer.getD "")) env.list_catalog_policies u)
        (pyOrStr u.user_label "Unknown Policy") pid := by
    simp [run_claim_check, hcat, hup]
  have hcss : claimSearchAndScore env c t
      (enrich (pyLower (u.insurer.getD "")) env.list_catalog_policies u)
      (pyOrStr u.user_label "Unknown Policy") pid =
      { result := Except.ok (errResult (noEvidenceMsg c)),
        search_calls :=
          [SearchCall.sem qv pid 6, SearchCall.sem cv pid 4,
           SearchCall.sec qv pid CLAIM_SECTIONS 4, SearchCall.kw c pid 10],
        llm_calls := [] } := by
    simp only [claimSearchAndScore, hq, hcov]
    rw [hfuse]
    rfl
  refine ⟨by rw [hrun, hcss], by rw [hrun, hcss], ?_⟩
  intro hempty
  have hd := congrArg String.data hempty
  simp only [noEvidenceMsg, String.data_append] at hd
  rcases List.append_eq_nil.mp hd with ⟨hd1, _⟩
  rcases List.append_eq_nil.mp hd1 with ⟨hd2, _⟩
  rcases List.append_eq_nil.mp hd2 with ⟨hd3, _⟩
  rcases List.append_eq_nil.mp hd3 with ⟨hd4, _⟩
  exact absurd hd4 (by decide)

/-- C4: when a policy reference resolves to an uploaded policy
(`get_catalog_policy` absent, `get_policy_by_id` present), every retrieval
call issued by `run_claim_check` — the two semantic searches, the
section-filtered search, and the keyword search — searches exactly that
reference's own document identifier, never a different document, even when a
catalog record matches the insurer for metadata enrichment. -/
theorem run_claim_check_uploaded_uses_own_doc {E : Type} (env : Env E) (pid c t : String)
    (u : Policy)
    (hcat : env.get_catalog_policy pid = none)
    (hup : env.get_policy_by_id pid = some u) :
    ((run_claim_check env pid c t).search_calls).all (fun cl => searchDoc cl == pid) = true := by
  have hrun : run_claim_check env pid c t =
      claimSearchAndScore env c t (enrich (pyLower (u.insurer.getD "")) env.list_catalog_policies u)
        (pyOrStr u.user_label "Unknown Policy") pid := by
    simp [run_claim_check, hcat, hup]
  rw [hrun]
  rcases claimSearchAndScore_search_calls env c t
      (enrich (pyLower (u.insurer.getD "")) env.list_catalog_policies u)
      (pyOrStr u.user_label "Unknown Policy") pid with h | ⟨qv, cv, _, h⟩
  · rw [h]
    rfl
  · rw [h]
    simp [searchDoc]

/-- C6: for a reference resolving to a catalog policy whose insurer has no
uploaded indexed document (`find_uploaded_for_insurer` absent),
`run_claim_check` returns the structured guidance error — exactly the
template naming the policy display name and the insurer and instructing the
user to upload a PDF — performs no search at all, never calls the analyzer,
and the result carries no `feasibility_score`. -/
theorem run_claim_check_catalog_no_doc {E : Type} (env : Env E) (pid c t : String) (cp : Policy)
    (hcat : env.get_catalog_policy pid = some cp)
    (hfind : env.find_uploaded_for_insurer (cp.insurer.getD "") = none) :
    (run_claim_check env pid c t).result =
      Except.ok (errResult (noDocMsg (pyOrStr cp.name "Unknown Policy") (cp.insurer.getD ""))) ∧
    (run_claim_check env pid c t).search_calls = [] ∧
    (run_claim_check env pid c t).llm_calls = [] ∧
    (errResult (noDocMsg (pyOrStr cp.name "Unknown Policy") (cp.insurer.getD ""))).feasibility_score
      = none := by
  have hrun : run_claim_check env pid c t =
      { result := Except.ok (errResult (noDocMsg (pyOrStr cp.name "Unknown Policy") (cp.insurer.getD ""))),
        search_calls := [], llm_calls := [] } := by
    simp [run_claim_check, hcat, hfind]
  exact ⟨by rw [hrun], by rw [hrun], by rw [hrun], rfl⟩

/-- C8: if embedding the primary query `"{condition} {treatment_type}"`
fails, `run_claim_check`'s search phase returns the embedding-failure error
immediately, with no retrieval performed and no analyzer call (no retry); if
only the fixed general-coverage probe embedding fails, the request proceeds
to retrieval, and the query vector is reused in place of the coverage vector
for the coverage search (second retrieval call). -/
theorem embedding_failure_handling {E : Type} (env : Env E) (c t : String) (pol : Policy)
    (pn sid e1 e2 : String) (qv : E) :
    (env.embed_text (c ++ " " ++ t) = Except.error e1 →
      claimSearchAndScore env c t pol pn sid =
        { result := Except.ok (errResult ("Embedding failed: " ++ e1)),
          search_calls := [], llm_calls := [] }) ∧
    (env.embed_text (c ++ " " ++ t) = Except.ok qv →
      env.embed_text COVERAGE_PROBE = Except.error e2 →
      (claimSearchAndScore env c t pol pn sid).search_calls =
        [SearchCall.sem qv sid 6, SearchCall.sem qv sid 4,
         SearchCall.sec qv sid CLAIM_SECTIONS 4, SearchCall.kw c sid 10]) := by
  constructor
  · intro h
    exact claimSearchAndScore_embed_fail env c t pol pn sid e1 h
  · intro hq hc
    simp only [claimSearchAndScore, hq, hc]
    split
    · rfl
    · split <;> rfl

theorem mergeField_eq {α : Type} (pv cv : Option α) :
    mergeField pv cv = if pv.isNone then cv else pv := by
  cases pv <;> cases cv <;> rfl

theorem enrich_no_match (ins : String) :
    ∀ (l : List Policy), (∀ x ∈ l, insurerMatchB ins x = false) → ∀ q, enrich ins l q = q := by
  intro l
  induction l with
  | nil => intro _ q; rfl
  | cons a as ih =>
    intro hl q
    have ha : insurerMatchB ins a = false := hl a (List.mem_cons_self a as)
    simp only [enrich, ha, Bool.false_eq_true, if_false]
    exact ih (fun x hx => hl x (List.mem_cons_of_mem a hx)) q

theorem enrich_first_match (ins : String) :
    ∀ (pre : List Policy) (cp : Policy) (rest : List Policy) (q : Policy),
      (∀ x ∈ pre, insurerMatchB ins x = false) → insurerMatchB ins cp = true →
      enrich ins (pre ++ cp :: rest) q = merge_catalog_fields q cp := by
  intro pre
  induction pre with
  | nil =>
    intro cp rest q _ hcp
    simp only [List.nil_append, enrich, hcp, if_true]
  | cons a as ih =>
    intro cp rest q hl hcp
    have ha : insurerMatchB ins a = false := hl a (List.mem_cons_self a as)
    simp only [List.cons_append, enrich, ha, Bool.false_eq_true, if_false]
    exact ih cp rest q (fun x hx => hl x (List.mem_cons_of_mem a hx)) hcp

/-- C5: on the uploaded-policy path, the first catalog record whose
(lowercased) insurer name is a truthy substring match in either direction of
the uploaded insurer name is merged and the scan stops there; records before
it (non-matching) are skipped, and if no record matches the uploaded record
is unchanged.  The merge copies each of the six scoring fields from the
catalog record exactly when the uploaded record's value is absent, and never
overwrites a value the uploaded record already has. -/
theorem enrich_metadata_merge (ins : String) (pre rest : List Policy) (cp p : Policy) :
    ((∀ x ∈ pre, insurerMatchB ins x = false) → insurerMatchB ins cp = true →
      enrich ins (pre ++ cp :: rest) p = merge_catalog_fields p cp) ∧
    ((∀ x ∈ pre, insurerMatchB ins x = false) → enrich ins pre p = p) ∧
    (merge_catalog_fields p cp).waiting_period_preexisting_years =
      (if p.waiting_period_preexisting_years.isNone then cp.waiting_period_preexisting_years
       else p.waiting_period_preexisting_years) ∧
    (merge_catalog_fields p cp).co_pay_percent =
      (if p.co_pay_percent.isNone then cp.co_pay_percent else p.co_pay_percent) ∧
    (merge_catalog_fields p cp).room_rent_limit =
      (if p.room_rent_limit.isNone then cp.room_rent_limit else p.room_rent_limit) ∧
    (merge_catalog_fields p cp).waiting_period_maternity_months =
      (if p.waiting_period_maternity_months.isNone then cp.waiting_period_maternity_months
       else p.waiting_period_maternity_months) ∧
    (merge_catalog_fields p cp).covers_maternity =
      (if p.covers_maternity.isNone then cp.covers_maternity else p.covers_maternity) ∧
    (merge_catalog_fields p cp).covers_opd =
      (if p.covers_opd.isNone then cp.covers_opd else p.covers_opd) := by
  refine ⟨fun hl hcp => enrich_first_match ins pre cp rest p hl hcp,
    fun hl => enrich_no_match ins pre hl p, ?_, ?_, ?_, ?_, ?_, ?_⟩
  all_goals
    simp only [merge_catalog_fields, mergeField_eq]

theorem dedupeGo_sublist : ∀ (l : List Chunk) (seen : List String),
    (dedupeGo l seen).Sublist l := by
  intro l
  induction l with
  | nil => intro _; exact List.Sublist.refl []
  | cons c cs ih =>
    intro seen
    rcases hid : c.id with _ | cid
    · simp only [dedupeGo, hid]
      exact (ih seen).cons c
    · simp only [dedupeGo, hid]
      by_cases hk : cid ≠ "" ∧ cid ∉ seen
      · rw [if_pos hk]
        exact (ih (cid :: seen)).cons₂ c
      · rw [if_neg hk]
        exact (ih seen).cons c

theorem dedupeGo_ids_aux : ∀ (l : List Chunk) (seen : List String),
    ((dedupeGo l seen).filterMap Chunk.id).Nodup ∧
    ∀ i ∈ (dedupeGo l seen).filterMap Chunk.id, i ∉ seen := by
  intro l
  induction l with
  | nil => intro _; exact ⟨List.nodup_nil, fun i hi => absurd hi (by simp [dedupeGo])⟩
  | cons c cs ih =>
    intro seen
    rcases hid : c.id with _ | cid
    · simpa only [dedupeGo, hid] using ih seen
    · by_cases hk : cid ≠ "" ∧ cid ∉ seen
      · have ihh := ih (cid :: seen)
        simp only [dedupeGo, hid, if_pos hk, List.filterMap_cons, Option.some.injEq]
        constructor
        · refine List.nodup_cons.mpr ⟨fun hmem => ?_, ihh.1⟩
          exact (ihh.2 cid hmem) (List.mem_cons_self cid seen)
        · intro i hi
          rcases List.mem_cons.mp hi with h | h
          · subst h; exact hk.2
          · exact fun hs => (ihh.2 i h) (List.mem_cons_of_mem cid hs)
      · simp only [dedupeGo, hid, if_neg hk]
        exact ih seen

theorem dedupeGo_all_truthy : ∀ (l : List Chunk) (seen : List String),
    ((dedupeGo l seen).all (fun d => truthyIdB d.id)) = true := by
  intro l
  induction l with
  | nil => intro _; rfl
  | cons c cs ih =>
    intro seen
    rcases hid : c.id with _ | cid
    · simp only [dedupeGo, hid]
      exact ih seen
    · by_cases hk : cid ≠ "" ∧ cid ∉ seen
      · have heq : dedupeGo (c :: cs) seen = c :: dedupeGo cs (cid :: seen) := by
          simp only [dedupeGo, hid, if_pos hk]
        rw [heq, List.all_cons, ih (cid :: seen), Bool.and_true, hid]
        simp [truthyIdB, hk.1]
      · simp only [dedupeGo, hid, if_neg hk]
        exact ih seen

theorem dedupeGo_mem_congr : ∀ (l : List Chunk) (s1 s2 : List String),
    (∀ x, x ∈ s1 ↔ x ∈ s2) → dedupeGo l s1 = dedupeGo l s2 := by
  intro l
  induction l with
  | nil => intro _ _ _; rfl
  | cons c cs ih =>
    intro s1 s2 h
    rcases hid : c.id with _ | cid
    · simp only [dedupeGo, hid]
      exact ih s1 s2 h
    · simp only [dedupeGo, hid]
      by_cases hk : cid ≠ "" ∧ cid ∉ s1
      · rw [if_pos hk, if_pos ⟨hk.1, fun hx => hk.2 ((h cid).mpr hx)⟩]
        have hmem : ∀ x, x ∈ cid :: s1 ↔ x ∈ cid :: s2 := by
          intro x
          simp only [List.mem_cons]
          constructor
          · rintro (hx | hx)
            · exact Or.inl hx
            · exact Or.inr ((h x).mp hx)
          · rintro (hx | hx)
            · exact Or.inl hx
            · exact Or.inr ((h x).mpr hx)
        rw [ih (cid :: s1) (cid :: s2) hmem]
      · rw [if_neg hk, if_neg (fun hc => hk ⟨hc.1, fun hx => hc.2 ((h cid).mp hx)⟩)]
        exact ih s1 s2 h

theorem dedupeGo_seen_filter : ∀ (l : List Chunk) (a : String) (seen : List String),
    dedupeGo l (a :: seen) = dedupeGo (l.filter (fun d => d.id != some a)) seen := by
  intro l
  induction l with
  | nil => intro _ _; rfl
  | cons c cs ih =>
    intro a seen
    rcases hid : c.id with _ | cid
    · have hfil : List.filter (fun d => d.id != some a) (c :: cs) =
          c :: List.filter (fun d => d.id != some a) cs := by
        simp [List.filter_cons, hid]
      rw [hfil]
      simp only [dedupeGo, hid]
      exact ih a seen
    · by_cases hca : cid = a
      · subst hca
        have hfil : List.filter (fun d => d.id != some cid) (c :: cs) =
            List.filter (fun d => d.id != some cid) cs := by
          simp [List.filter_cons, hid]
        rw [hfil]
        simp only [dedupeGo, hid]
        rw [if_neg (fun hc => hc.2 (List.mem_cons_self cid seen))]
        exact ih cid seen
      · have hfil : List.filter (fun d => d.id != some a) (c :: cs) =
            c :: List.filter (fun d => d.id != some a) cs := by
          simp [List.filter_cons, hid, hca]
        rw [hfil]
        simp only [dedupeGo, hid]
        by_cases hk : cid ≠ "" ∧ cid ∉ seen
        · rw [if_pos ⟨hk.1, by simp [List.mem_cons, hca, hk.2]⟩, if_pos hk]
          have hswap : dedupeGo cs (cid :: a :: seen) = dedupeGo cs (a :: cid :: seen) := by
            apply dedupeGo_mem_congr
            intro x
            simp only [List.mem_cons]
            tauto
          rw [hswap, ih a (cid :: seen)]
        · have hk2 : ¬(cid ≠ "" ∧ cid ∉ a :: seen) := by
            rintro ⟨h1, h2⟩
            exact hk ⟨h1, fun hs => h2 (List.mem_cons_of_mem a hs)⟩
          rw [if_neg hk2, if_neg hk]
          exact ih a seen

theorem dedupe_cons_eq (c : Chunk) (l : List Chunk) :
    _dedupe (c :: l) =
      if truthyIdB c.id then c :: _dedupe (l.filter (fun d => d.id != c.id)) else _dedupe l := by
  rcases hid : c.id with _ | cid
  · simp only [_dedupe, dedupeGo, hid, truthyIdB, Bool.false_eq_true, if_false]
  · by_cases hcid : cid = ""
    · subst hcid
      simp [_dedupe, dedupeGo, hid, truthyIdB]
    · simp only [_dedupe, dedupeGo, hid, truthyIdB]
      rw [if_pos ⟨hcid, List.not_mem_nil cid⟩, if_pos (by simp [hcid])]
      rw [dedupeGo_seen_filter l cid []]

theorem dedupeByKeyGo_keys_aux : ∀ (l : List Chunk) (seen : List (Option String)),
    ((dedupeByKeyGo l seen).map Chunk.id).Nodup ∧
    ∀ k ∈ (dedupeByKeyGo l seen).map Chunk.id, k ∉ seen := by
  intro l
  induction l with
  | nil => intro _; exact ⟨List.nodup_nil, fun k hk => absurd hk (by simp [dedupeByKeyGo])⟩
  | cons c cs ih =>
    intro seen
    by_cases hmem : c.id ∈ seen
    · simp only [dedupeByKeyGo, if_pos hmem]
      exact ih seen
    · have ihh := ih (c.id :: seen)
      simp only [dedupeByKeyGo, if_neg hmem, List.map_cons]
      constructor
      · refine List.nodup_cons.mpr ⟨fun hx => ?_, ihh.1⟩
        exact (ihh.2 c.id hx) (List.mem_cons_self c.id seen)
      · intro k hk
        rcases List.mem_cons.mp hk with h | h
        · subst h; exact hmem
        · exact fun hs => (ihh.2 k h) (List.mem_cons_of_mem c.id hs)

theorem insertDesc_perm (p : Chunk × Rat) : ∀ l, (insertDesc p l).Perm (p :: l) := by
  intro l
  induction l with
  | nil => exact List.Perm.refl _
  | cons q qs ih =>
    simp only [insertDesc]
    by_cases h : p.2 ≤ q.2
    · rw [if_pos h]
      exact (ih.cons q).trans (List.Perm.swap p q qs)
    · rw [if_neg h]

theorem sortDesc_perm : ∀ l, (sortDesc l).Perm l := by
  have aux : ∀ (l acc : List (Chunk × Rat)),
      (l.foldl (fun acc p => insertDesc p acc) acc).Perm (l ++ acc) := by
    intro l
    induction l with
    | nil => intro acc; simp
    | cons p ps ih =>
      intro acc
      simp only [List.foldl_cons]
      refine (ih (insertDesc p acc)).trans ?_
      refine (List.Perm.append_left ps (insertDesc_perm p acc)).trans ?_
      exact List.perm_middle
  intro l
  have h := aux l []
  rw [List.append_nil] at h
  exact h

theorem rrf_fusion_ids_nodup (sem kw : List Chunk) (n : Nat) :
    ((rrf_fusion sem kw n).map Chunk.id).Nodup := by
  have hcand := (dedupeByKeyGo_keys_aux (sem ++ kw) []).1
  simp only [rrf_fusion]
  have h3 : ((dedupeByKeyGo (sem ++ kw) []).map
      (fun c => (c, rrfContrib c.id sem + rrfContrib c.id kw))).map Prod.fst =
      dedupeByKeyGo (sem ++ kw) [] := by
    rw [List.map_map]
    exact List.map_id _
  have hperm : (((sortDesc ((dedupeByKeyGo (sem ++ kw) []).map
      (fun c => (c, rrfContrib c.id sem + rrfContrib c.id kw)))).map Prod.fst).map Chunk.id).Perm
      ((dedupeByKeyGo (sem ++ kw) []).map Chunk.id) := by
    have h1 := sortDesc_perm ((dedupeByKeyGo (sem ++ kw) []).map
      (fun c => (c, rrfContrib c.id sem + rrfContrib c.id kw)))
    have h2 := (h1.map Prod.fst).map Chunk.id
    rw [h3] at h2
    exact h2
  have hnodup := hperm.nodup_iff.mpr hcand
  have hsub : ((((sortDesc ((dedupeByKeyGo (sem ++ kw) []).map
      (fun c => (c, rrfContrib c.id sem + rrfContrib c.id kw)))).map Prod.fst).take n).map Chunk.id).Sublist
      ((((sortDesc ((dedupeByKeyGo (sem ++ kw) []).map
      (fun c => (c, rrfContrib c.id sem + rrfContrib c.id kw)))).map Prod.fst)).map Chunk.id) :=
    (List.take_sublist n _).map Chunk.id
  exact hnodup.sublist hsub

/-- C9: fusion is stable and deduplicating.  `_dedupe` merges the semantic
candidate lists into one sequence deduplicated by chunk identifier preserving
first-seen order: the recursion equation below shows it keeps exactly the
first chunk carrying each truthy identifier and drops every later chunk with
the same identifier, its output is an order-preserving sublist of its input,
and its output identifiers are pairwise distinct.  Fusion is a pure function,
so running it twice on the same input lists yields the same ordered output,
and (with `rrf_fusion` modelled from the spec) no chunk identifier appears
twice in the fused evidence set. -/
theorem fusion_dedupe_properties (l sem kw : List Chunk) (c : Chunk) (n : Nat) :
    _dedupe ([] : List Chunk) = [] ∧
    (_dedupe (c :: l) =
      if truthyIdB c.id then c :: _dedupe (l.filter (fun d => d.id != c.id)) else _dedupe l) ∧
    (_dedupe l).Sublist l ∧
    ((_dedupe l).filterMap Chunk.id).Nodup ∧
    rrf_fusion sem kw n = rrf_fusion sem kw n ∧
    ((rrf_fusion sem kw n).map Chunk.id).Nodup :=
  ⟨rfl, dedupe_cons_eq c l, dedupeGo_sublist l [], (dedupeGo_ids_aux l []).1, rfl,
    rrf_fusion_ids_nodup sem kw n⟩

/-- C10 (amended): `_dedupe` silently drops every chunk whose `"id"` is
missing, None, or empty, in addition to removing later duplicates, so every
chunk in its output has a non-empty identifier and a *semantic* candidate
lacking an identifier can never reach fusion.  The original claim fails for
keyword candidates: `kw_chunks` is passed to `rrf_fusion` without `_dedupe`,
so a keyword-retrieved chunk lacking an identifier can reach fusion and the
assembled context (see the counterexample). -/
theorem dedupe_drops_untruthy_ids (l : List Chunk) (c : Chunk) :
    ((_dedupe l).all (fun d => truthyIdB d.id)) = true ∧
    (truthyIdB c.id = false → c ∉ _dedupe l) := by
  refine ⟨dedupeGo_all_truthy l [], fun hf hmem => ?_⟩
  have htr := List.all_eq_true.mp (dedupeGo_all_truthy l []) c hmem
  rw [hf] at htr
  exact absurd htr (by simp)

/-- C7 (amended): every dict returned by `run_claim_check` is either a pure
error result or a fully-populated success result, never a partial mix; the
policy-not-found condition maps to the structured error result (the other
three enumerated error conditions are settled by the C3, C6 and C8
theorems); and provided every record returned by `find_uploaded_for_insurer`
carries an id and every `llm.chat_json` call returns normally, no exception
escapes to the caller.  The original claim's unconditional "no exception ever
escapes" fails: a failure of the Analysis-Service call `llm.chat_json`
propagates uncaught (the gap the spec itself flags in §7), see the
counterexample. -/
theorem run_claim_check_result_shape {E : Type} (env : Env E) (pid c t : String) :
    (∀ r, (run_claim_check env pid c t).result = Except.ok r →
      (isErrorResult r || isFullSuccess r) = true) ∧
    (env.get_catalog_policy pid = none → env.get_policy_by_id pid = none →
      (run_claim_check env pid c t).result = Except.ok (errResult "Policy not found.")) ∧
    ((∀ s p2, env.find_uploaded_for_insurer s = some p2 → p2.id.isSome = true) →
      (∀ s u, exceptIsOk (env.chat_json s u) = true) →
      exceptIsOk (run_claim_check env pid c t).result = true) := by
  refine ⟨?_, ?_, ?_⟩
  · intro r h
    rcases hcat : env.get_catalog_policy pid with _ | cp
    · rcases hup : env.get_policy_by_id pid with _ | u
      · simp only [run_claim_check, hcat, hup] at h
        injection h with h
        subst h
        rfl
      · simp only [run_claim_check, hcat, hup] at h
        exact claimSearchAndScore_ok_shape env c t _ _ _ r h
    · rcases hfind : env.find_uploaded_for_insurer (cp.insurer.getD "") with _ | um
      · simp only [run_claim_check, hcat, hfind] at h
        injection h with h
        subst h
        rfl
      · rcases hid : um.id with _ | sid
        · simp only [run_claim_check, hcat, hfind, hid] at h
          exact absurd h (by simp)
        · simp only [run_claim_check, hcat, hfind, hid] at h
          exact claimSearchAndScore_ok_shape env c t _ _ _ r h
  · intro hcat hup
    simp [run_claim_check, hcat, hup]
  · intro hfind hllm
    rcases hcat : env.get_catalog_policy pid with _ | cp
    · rcases hup : env.get_policy_by_id pid with _ | u
      · simp [run_claim_check, hcat, hup, exceptIsOk]
      · simp only [run_claim_check, hcat, hup]
        exact claimSearchAndScore_ok_total env c t _ _ _ hllm
    · rcases hfind2 : env.find_uploaded_for_insurer (cp.insurer.getD "") with _ | um
      · simp [run_claim_check, hcat, hfind2, exceptIsOk]
      · rcases hid : um.id with _ | sid
        · have hsome := hfind _ um hfind2
          rw [hid] at hsome
          exact absurd hsome (by simp)
        · simp only [run_claim_check, hcat, hfind2, hid]
          exact claimSearchAndScore_ok_total env c t _ _ _ hllm

/-- A well-formed evidence chunk used by the test environments. -/
def chunkA : Chunk :=
  { id := some "c1", content := "Inpatient hospitalization is covered.",
    section_type := some "coverage", page_number := some 3 }

/-- A keyword-retrieved chunk with no identifier. -/
def idlessChunk : Chunk := { id := none, content := "ORPHAN CONTENT" }

/-- An uploaded-policy record used by the test environments. -/
def uploadedU : Policy := { id := some "u1", user_label := some "My Policy", insurer := some "Tata AIG" }

/-- A catalog record whose insurer has no uploaded document. -/
def catT : Policy := { name := some "Tata Premium", insurer := some "Tata AIG" }

/-- Test environment: no catalog match, one uploaded policy, all retrieval
calls empty, analyzer returns an empty object. -/
def envEmpty : Env Nat :=
  { get_catalog_policy := fun _ => none
    get_policy_by_id := fun _ => some uploadedU
    list_catalog_policies := []
    find_uploaded_for_insurer := fun _ => none
    embed_text := fun _ => Except.ok 0
    semantic_search := fun _ _ _ => []
    section_search := fun _ _ _ _ => []
    keyword_search := fun _ _ _ => []
    rrf_fusion := fun _ _ _ => []
    chat_json := fun _ _ => Except.ok {} }

/-- Test environment where neither lookup knows the policy. -/
def envNF : Env Nat := { envEmpty with get_policy_by_id := fun _ => none }

/-- Test environment with a catalog record but no uploaded document for its
insurer. -/
def envCat : Env Nat := { envEmpty with get_catalog_policy := fun _ => some catT }

/-- Test environment whose embedder always fails. -/
def envEmbedFail : Env Nat := { envEmpty with embed_text := fun _ => Except.error "embedder down" }

/-- Test environment where only the coverage-probe embedding fails. -/
def envProbeFail : Env Nat :=
  { envEmpty with
    embed_text := fun s => if s = COVERAGE_PROBE then Except.error "probe down" else Except.ok 7 }

/-- Test environment with evidence present and a failing Analysis Service
(the fusion collaborator here simply concatenates, so this environment does
not depend on the spec-modelled RRF). -/
def envLLMFail : Env Nat :=
  { envEmpty with
    semantic_search := fun _ _ _ => [chunkA]
    rrf_fusion := fun semc kwc _ => semc ++ kwc
    chat_json := fun _ _ => Except.error "LLM transport failure" }

/-- Test environment where only the keyword search returns a chunk — one
without an identifier. -/
def envKW : Env Nat :=
  { envEmpty with
    keyword_search := fun _ _ _ => [idlessChunk]
    rrf_fusion := rrf_fusion }

/-- C3 witness. -/
theorem run_claim_check_no_evidence_guard_witness :
    (run_claim_check envEmpty "p1" "diabetes" "surgery").result =
      Except.ok (errResult (noEvidenceMsg "diabetes")) ∧
    (run_claim_check envEmpty "p1" "diabetes" "surgery").llm_calls = [] ∧
    noEvidenceMsg "diabetes" ≠ "" :=
  run_claim_check_no_evidence_guard envEmpty "p1" "diabetes" "surgery" uploadedU 0 0
    rfl rfl rfl rfl rfl

/-- C4 witness. -/
theorem run_claim_check_uploaded_uses_own_doc_witness :
    ((run_claim_check envEmpty "p1" "diabetes" "surgery").search_calls).all
      (fun cl => searchDoc cl == "p1") = true :=
  run_claim_check_uploaded_uses_own_doc envEmpty "p1" "diabetes" "surgery" uploadedU rfl rfl

/-- C6 witness. -/
theorem run_claim_check_catalog_no_doc_witness :
    (run_claim_check envCat "cat1" "diabetes" "surgery").result =
      Except.ok (errResult (noDocMsg (pyOrStr catT.name "Unknown Policy") (catT.insurer.getD ""))) ∧
    (run_claim_check envCat "cat1" "diabetes" "surgery").search_calls = [] ∧
    (run_claim_check envCat "cat1" "diabetes" "surgery").llm_calls = [] ∧
    (errResult (noDocMsg (pyOrStr catT.name "Unknown Policy") (catT.insurer.getD ""))).feasibility_score
      = none :=
  run_claim_check_catalog_no_doc envCat "cat1" "diabetes" "surgery" catT rfl rfl

/-- C8 witness. -/
theorem embedding_failure_handling_witness :
    claimSearchAndScore envEmbedFail "diabetes" "surgery" {} "P" "d1" =
      { result := Except.ok (errResult ("Embedding failed: " ++ "embedder down")),
        search_calls := [], llm_calls := [] } ∧
    (claimSearchAndScore envProbeFail "diabetes" "surgery" {} "P" "d1").search_calls =
      [SearchCall.sem 7 "d1" 6, SearchCall.sem 7 "d1" 4,
       SearchCall.sec 7 "d1" CLAIM_SECTIONS 4, SearchCall.kw "diabetes" "d1" 10] :=
  ⟨(embedding_failure_handling envEmbedFail "diabetes" "surgery" {} "P" "d1"
      "embedder down" "x" (0 : Nat)).1 rfl,
   (embedding_failure_handling envProbeFail "diabetes" "surgery" {} "P" "d1"
      "x" "probe down" (7 : Nat)).2 rfl rfl⟩

/-- C7 witness. -/
theorem run_claim_check_result_shape_witness :
    (isErrorResult (errResult "Policy not found.") || isFullSuccess (errResult "Policy not found.")) = true ∧
    (run_claim_check envNF "p1" "fever" "ip").result = Except.ok (errResult "Policy not found.") ∧
    exceptIsOk (run_claim_check envEmpty "p1" "fever" "ip").result = true :=
  ⟨(run_claim_check_result_shape envNF "p1" "fever" "ip").1 (errResult "Policy not found.")
      ((run_claim_check_result_shape envNF "p1" "fever" "ip").2.1 rfl rfl),
   (run_claim_check_result_shape envNF "p1" "fever" "ip").2.1 rfl rfl,
   (run_claim_check_result_shape envEmpty "p1" "fever" "ip").2.2
      (fun _ _ h => Option.noConfusion h) (fun _ _ => rfl)⟩

/-- C7 counterexample: with evidence present and `llm.chat_json` failing, the
exception propagates out of `run_claim_check` uncaught — the claim's "no
exception ever escapes to the caller" is false on the code. -/
theorem llm_exception_escapes_counterexample :
    (run_claim_check envLLMFail "p1" "fever" "ip").result =
      Except.error "LLM transport failure" := by
  rfl

/-- C10 witness (for the amended claim). -/
theorem dedupe_drops_untruthy_ids_witness :
    ((_dedupe [chunkA, idlessChunk]).all (fun d => truthyIdB d.id)) = true ∧
    idlessChunk ∉ _dedupe [chunkA, idlessChunk] :=
  ⟨(dedupe_drops_untruthy_ids [chunkA, idlessChunk] idlessChunk).1,
   (dedupe_drops_untruthy_ids [chunkA, idlessChunk] idlessChunk).2 rfl⟩

/-- C10 counterexample: a keyword-retrieved chunk with no identifier passes
through fusion (which receives `kw_chunks` without `_dedupe`) and its content
reaches the assembled context handed to the analyzer — refuting "a retrieved
chunk lacking an identifier can never reach fusion or the assembled
context". -/
theorem keyword_idless_reaches_context_counterexample :
    rrf_fusion [] [idlessChunk] 10 = [idlessChunk] ∧
    (run_claim_check envKW "p1" "fever" "ip").llm_calls =
      [(GROUNDED_CLAIM_SYSTEM,
        mkUserPrompt (_build_context_block [idlessChunk]) "fever" "ip")] ∧
    pyIn idlessChunk.content (_build_context_block [idlessChunk]) = true := by
  refine ⟨rfl, rfl, by decide⟩

/-- An uploaded record that already carries a co-pay value. -/
def upP : Policy :=
  { id := some "u2", user_label := some "Mine", insurer := some "Tata AIG",
    co_pay_percent := some 5 }

/-- A non-matching catalog record. -/
def catX : Policy := { name := some "Star Care", insurer := some "Star Health" }

/-- The first matching catalog record. -/
def catA : Policy :=
  { name := some "Tata Premium", insurer := some "Tata AIG General",
    co_pay_percent := some 10, room_rent_limit := some "2% of sum insured" }

/-- A later catalog record that also matches but must be ignored. -/
def catB : Policy :=
  { name := some "Tata Basic", insurer := some "Tata AIG", room_rent_limit := some "No limit" }

/-- C5 witness: the first matching record `catA` wins over the later `catB`,
the non-matching `catX` is skipped, the absent room-rent field is copied, and
the co-pay the uploaded record already has is not overwritten. -/
theorem enrich_metadata_merge_witness :
    enrich "tata aig" ([catX] ++ catA :: [catB]) upP = merge_catalog_fields upP catA ∧
    enrich "tata aig" [catX] upP = upP ∧
    (merge_catalog_fields upP catA).co_pay_percent = some 5 ∧
    (merge_catalog_fields upP catA).room_rent_limit = some "2% of sum insured" := by
  have h := enrich_metadata_merge "tata aig" [catX] [catB] catA upP
  refine ⟨h.1 (by decide) (by decide), h.2.1 (by decide), ?_, ?_⟩
  · rw [h.2.2.2.1]
    rfl
  · rw [h.2.2.2.2.1]
    rfl
